import Mathlib

/-!
# Verification of the hiredis/libev adapter (`src/libev_adapter.h`)

This file gives a shallow embedding of the adapter that bridges a hiredis
`redisAsyncContext` to a libev event loop, and proves the specified
properties about it.

## Modelling choices

The whole system is one `redisLibevEvents` struct plus the functions acting
on it.  We model the reachable memory as a single `World` record holding:

* the fields of the (unique) `redisLibevEvents` allocation, including the
  three embedded watchers `rev`, `wev`, `timer` with their `data`
  back-reference, libev priority, libev `active` (registered) flag and, for
  the timer, its `repeat` interval and absolute deadline;
* whether that allocation is still live (`alive`, cleared by `Safefree`);
* the client context's hook-table slot `ac->ev.data` (`ctxEvData`) and the
  installed hook table;
* the event loop's current time `now` (a rational; time passing between
  calls is modelled by `advanceTime`).

Pointers that the code only ever tests against `NULL` and dereferences
(`e->context`, `e->loop`, the `data` back-references, `ac->ev.data`) are
modelled as `Bool`: `true` means "non-null, pointing at the unique partner
object".

Each C function becomes a function `... → World → World × List Ev` that
returns the updated memory together with the ordered trace of observable
actions it performed (calls into libev, nulling of back-references,
releasing of memory, calls into the hiredis handlers).  Sequences of C
assignments to distinct fields are collapsed into a single record update;
the trace keeps the original statement order.

The libev and hiredis primitives themselves are external collaborators
(they are not part of this repository), so they are modelled from the
spec's external-interface section: registration primitives set the
watcher's registered flag, the timer re-arm primitive resets the remaining
duration to the configured repeat interval, and `ev_init` resets a watcher
to inactive with the default priority `0`.  The duration conversion
`tv_sec + tv_usec / 1000000.00` is modelled over `Rat` (exact arithmetic
in place of C doubles; no claim depends on floating-point rounding).
-/

set_option autoImplicit false

namespace Libev

/-- Identifies one of the three watchers of a `redisLibevEvents`:
read (`rev`), write (`wev`) and timer (`timer`). -/
inductive WK where
  | rd | wr | tm
deriving DecidableEq, Repr

/-- Observable actions of the adapter, in the order the C code performs
them: calls into the event loop, nulling of back-references, clearing of
the active flags, release of the allocation, and calls into the client
context's handlers. -/
inductive Ev where
  | ioStart (k : WK)
  | ioStop (k : WK)
  | timerStop
  | timerAgain
  | timerInit
  | setPrio (k : WK) (p : Int)
  | clearCtxEvData
  | nullLoop
  | nullContext
  | nullWatcherData (k : WK)
  | clearFlag (k : WK)
  | free
  | handleRead
  | handleWrite
  | handleTimeout
deriving DecidableEq, Repr

/-- A `struct timeval` duration: seconds plus microseconds. -/
structure Timeval where
  sec : Int
  usec : Int
deriving DecidableEq, Repr

/-- The duration conversion performed by `redisLibevSetTimeout`:
`tv.tv_sec + tv.tv_usec / 1000000.00`, over exact rationals. -/
def tvToRat (tv : Timeval) : Rat :=
  (tv.sec : Rat) + (tv.usec : Rat) / 1000000

/-- An `ev_io` watcher: its `data` back-reference (modelled as "non-null,
pointing at the adapter state"), its libev priority, and whether it is
currently registered with the loop (libev's internal `active` flag). -/
structure EvIo where
  data : Bool
  pri : Int
  active : Bool
deriving DecidableEq, Repr

/-- An `ev_timer` watcher: like `EvIo`, plus its configured `repeat`
interval and the absolute deadline `at_` at which it is due to fire. -/
structure EvTimer where
  data : Bool
  pri : Int
  active : Bool
  repeatV : Rat
  at_ : Rat
deriving DecidableEq, Repr

/-- The fields of `struct redisLibevEvents`.  `context` and `loop` are the
two non-owning references, modelled as "non-null" booleans. -/
structure RedisLibevEvents where
  context : Bool
  loop : Bool
  reading : Bool
  writing : Bool
  timing : Bool
  rev : EvIo
  wev : EvIo
  timer : EvTimer
  priority : Int
deriving DecidableEq, Repr

/-- Names of the adapter functions that can be installed in the client
context's hook table. -/
inductive HookFn where
  | hAddRead | hDelRead | hAddWrite | hDelWrite | hStopTimer | hCleanup | hSetTimeout
deriving DecidableEq, Repr

/-- The client context's hook table: one slot per hiredis hook. -/
structure HookTable where
  addRead : HookFn
  delRead : HookFn
  addWrite : HookFn
  delWrite : HookFn
  cleanup : HookFn
  scheduleTimer : HookFn
deriving DecidableEq, Repr

/-- The reachable memory of the system: the unique adapter allocation `e`,
whether it is still live, the client context's `ac->ev.data` slot and hook
table, and the loop's current time. -/
structure World where
  e : RedisLibevEvents
  alive : Bool
  ctxEvData : Bool
  hooks : Option HookTable
  now : Rat
deriving DecidableEq, Repr

/-- Modelled from the spec: the external loop's timer re-arm primitive
(`ev_timer_again`), described in the external-interface section as "a
re-arm primitive for timers that resets the remaining duration" — it
(re)registers the timer and moves its deadline to the configured repeat
interval measured from the current time. -/
def evTimerRearm (t : EvTimer) (now : Rat) : EvTimer :=
  { t with active := true, at_ := now + t.repeatV }

/-- `redisLibevAddRead(privdata)`.  `eN` is whether the `privdata` pointer
is non-null (hiredis passes `ac->ev.data`). -/
def redisLibevAddRead (eN : Bool) (w : World) : World × List Ev :=
  if eN = false then (w, [])                  -- if (e == NULL) return;
  else if w.e.loop = false then (w, [])       -- if (loop == NULL) return;
  else if w.e.reading = false then
    -- e->reading = 1; ev_io_start(loop, &e->rev);
    ({ w with
        e := { w.e with
          reading := true,
          rev := { w.e.rev with active := true } } },
     [Ev.ioStart WK.rd])
  else (w, [])

/-- `redisLibevDelRead(privdata)`. -/
def redisLibevDelRead (eN : Bool) (w : World) : World × List Ev :=
  if eN = false then (w, [])                  -- if (e == NULL) return;
  else if w.e.reading = true then
    -- e->reading = 0; if (loop != NULL) ev_io_stop(loop, &e->rev);
    ({ w with
        e := { w.e with
          reading := false,
          rev := { w.e.rev with
            active := if w.e.loop = true then false else w.e.rev.active } } },
     if w.e.loop = true then [Ev.ioStop WK.rd] else [])
  else (w, [])

/-- `redisLibevAddWrite(privdata)`. -/
def redisLibevAddWrite (eN : Bool) (w : World) : World × List Ev :=
  if eN = false then (w, [])
  else if w.e.loop = false then (w, [])
  else if w.e.writing = false then
    -- e->writing = 1; ev_io_start(loop, &e->wev);
    ({ w with
        e := { w.e with
          writing := true,
          wev := { w.e.wev with active := true } } },
     [Ev.ioStart WK.wr])
  else (w, [])

/-- `redisLibevDelWrite(privdata)`. -/
def redisLibevDelWrite (eN : Bool) (w : World) : World × List Ev :=
  if eN = false then (w, [])
  else if w.e.writing = true then
    ({ w with
        e := { w.e with
          writing := false,
          wev := { w.e.wev with
            active := if w.e.loop = true then false else w.e.wev.active } } },
     if w.e.loop = true then [Ev.ioStop WK.wr] else [])
  else (w, [])

/-- `redisLibevStopTimer(privdata)` — defined in the source but never
installed in the hook table nor called. -/
def redisLibevStopTimer (eN : Bool) (w : World) : World × List Ev :=
  if eN = false then (w, [])
  else if w.e.timing = true then
    -- e->timing = 0; if (loop != NULL) ev_timer_stop(loop, &e->timer);
    ({ w with
        e := { w.e with
          timing := false,
          timer := { w.e.timer with
            active := if w.e.loop = true then false else w.e.timer.active } } },
     if w.e.loop = true then [Ev.timerStop] else [])
  else (w, [])

/-- `redisLibevCleanup(privdata)`.  The trace records the C statement
order: clear `ctx->ev.data` (when the context reference is non-null),
null `e->loop` then `e->context`, null the three watcher `data`
back-references, stop the three watchers (when the captured loop is
non-null), clear the three flags, `Safefree(e)`. -/
def redisLibevCleanup (eN : Bool) (w : World) : World × List Ev :=
  if eN = false then (w, [])                  -- if (e == NULL) return;
  else
    ({ w with
        alive := false,                       -- Safefree(e)
        -- ctx = e->context; if (ctx != NULL) ctx->ev.data = NULL;
        ctxEvData := if w.e.context = true then false else w.ctxEvData,
        e := { w.e with
          loop := false,                      -- e->loop = NULL;
          context := false,                   -- e->context = NULL;
          -- e->rev.data = e->wev.data = e->timer.data = NULL;
          -- if (loop != NULL) { ev_io_stop; ev_io_stop; ev_timer_stop; }
          rev := { w.e.rev with
            data := false,
            active := if w.e.loop = true then false else w.e.rev.active },
          wev := { w.e.wev with
            data := false,
            active := if w.e.loop = true then false else w.e.wev.active },
          timer := { w.e.timer with
            data := false,
            active := if w.e.loop = true then false else w.e.timer.active },
          -- e->reading = e->writing = e->timing = 0;
          reading := false, writing := false, timing := false } },
     (if w.e.context = true then [Ev.clearCtxEvData] else []) ++
       [Ev.nullLoop, Ev.nullContext,
        Ev.nullWatcherData WK.rd, Ev.nullWatcherData WK.wr, Ev.nullWatcherData WK.tm] ++
       (if w.e.loop = true then [Ev.ioStop WK.rd, Ev.ioStop WK.wr, Ev.timerStop] else []) ++
       [Ev.clearFlag WK.rd, Ev.clearFlag WK.wr, Ev.clearFlag WK.tm, Ev.free])

/-- `redisLibevSetTimeout(privdata, tv)`.  On first use (`!e->timing`) it
runs `ev_init(&e->timer, ...)` — modelled from the spec's external
interface as resetting the watcher to inactive with priority `0` — and
restores `e->timer.data = e`; it then sets `e->timer.repeat` from `tv` and
calls the re-arm primitive. -/
def redisLibevSetTimeout (eN : Bool) (tv : Timeval) (w : World) : World × List Ev :=
  if eN = false then (w, [])                  -- if (e == NULL) return;
  else if w.e.loop = false then (w, [])       -- if (loop == NULL) return;
  else if w.e.timing = false then
    -- e->timing = 1; ev_init(&e->timer, redisLibevTimeout); e->timer.data = e;
    -- e->timer.repeat = tv.tv_sec + tv.tv_usec / 1000000.00; ev_timer_again(loop, &e->timer);
    ({ w with
        e := { w.e with
          timing := true,
          timer := evTimerRearm
            { data := true, pri := 0, active := false,
              repeatV := tvToRat tv, at_ := w.e.timer.at_ } w.now } },
     [Ev.timerInit, Ev.timerAgain])
  else
    ({ w with
        e := { w.e with
          timer := evTimerRearm { w.e.timer with repeatV := tvToRat tv } w.now } },
     [Ev.timerAgain])

/-- Result of `redisLibevAttach`.  The C function returns `REDIS_ERR` at
two distinct sites (slot already occupied; allocation returned `NULL`) and
`REDIS_OK` on success; the two error sites are kept distinct here. -/
inductive AttachResult where
  | ok
  | errAlreadyAttached
  | errAllocFailure
deriving DecidableEq, Repr

/-- The hook table installed by `redisLibevAttach`:
`ac->ev.addRead = redisLibevAddRead; ... ac->ev.scheduleTimer = redisLibevSetTimeout;`. -/
def attachHooks : HookTable :=
  { addRead := HookFn.hAddRead, delRead := HookFn.hDelRead,
    addWrite := HookFn.hAddWrite, delWrite := HookFn.hDelWrite,
    cleanup := HookFn.hCleanup, scheduleTimer := HookFn.hSetTimeout }

/-- The list of functions occupying the six slots of a hook table. -/
def tableValues (t : HookTable) : List HookFn :=
  [t.addRead, t.delRead, t.addWrite, t.delWrite, t.cleanup, t.scheduleTimer]

/-- `redisLibevAttach(loop, ac)`.  `allocOk` models whether the `Newx`
allocation succeeds.  The attach loop argument is a live (non-null) loop,
so the new state's `loop` reference is non-null (`EV_MULTIPLICITY`
build, as used with the EV perl module).  The timer's `repeat` and
deadline are left as found in memory: `Newx` does not zero the
allocation, and neither `ev_init` nor the rest of `redisLibevAttach`
writes `timer.repeat`. -/
def redisLibevAttach (allocOk : Bool) (w : World) : World × AttachResult :=
  if w.ctxEvData = true then (w, AttachResult.errAlreadyAttached)
  else if allocOk = false then (w, AttachResult.errAllocFailure)
  else
    ({ w with
        alive := true,
        e := { context := true, loop := true,
               reading := false, writing := false, timing := false,
               rev := { data := true, pri := 0, active := false },
               wev := { data := true, pri := 0, active := false },
               timer := { data := true, pri := 0, active := false,
                          repeatV := w.e.timer.repeatV, at_ := w.e.timer.at_ },
               priority := 0 },
        hooks := some attachHooks,
        ctxEvData := true },
     AttachResult.ok)

/-- `redisLibevSetPriority(ac, priority)`.  This one is called with the
context, not through the hook table: it reads `e = ac->ev.data` itself. -/
def redisLibevSetPriority (p : Int) (w : World) : World × List Ev :=
  if w.ctxEvData = false then (w, [])         -- if (e == NULL) return;
  else if w.e.loop = false then (w, [])       -- if (loop == NULL) return;
  else
    ({ w with
        e := { w.e with
          priority := p,                      -- e->priority = priority;
          rev := { w.e.rev with
            pri := p,
            active := if w.e.reading = true then true else w.e.rev.active },
          wev := { w.e.wev with
            pri := p,
            active := if w.e.writing = true then true else w.e.wev.active },
          timer := if w.e.timing = true then
              evTimerRearm { w.e.timer with pri := p } w.now
            else { w.e.timer with pri := p } } },
     (if w.e.reading = true then
        [Ev.ioStop WK.rd, Ev.setPrio WK.rd p, Ev.ioStart WK.rd]
      else [Ev.setPrio WK.rd p]) ++
     (if w.e.writing = true then
        [Ev.ioStop WK.wr, Ev.setPrio WK.wr p, Ev.ioStart WK.wr]
      else [Ev.setPrio WK.wr p]) ++
     (if w.e.timing = true then
        [Ev.timerStop, Ev.setPrio WK.tm p, Ev.timerAgain]
      else [Ev.setPrio WK.tm p]))

/-- `redisLibevReadEvent(loop, watcher, revents)`: the loop hands back the
read watcher; `e = watcher->data`.  `cb` models
`redisAsyncHandleRead(e->context)`, an external hiredis call that may
re-enter the adapter's hooks (including cleanup). -/
def redisLibevReadEvent (cb : World → World × List Ev) (w : World) : World × List Ev :=
  if w.e.rev.data = false then (w, [])        -- if (e == NULL ...) return;
  else if w.e.context = false then (w, [])    -- if (... e->context == NULL) return;
  else ((cb w).1, Ev.handleRead :: (cb w).2)  -- redisAsyncHandleRead(e->context);

/-- `redisLibevWriteEvent(loop, watcher, revents)`. -/
def redisLibevWriteEvent (cb : World → World × List Ev) (w : World) : World × List Ev :=
  if w.e.wev.data = false then (w, [])
  else if w.e.context = false then (w, [])
  else ((cb w).1, Ev.handleWrite :: (cb w).2)

/-- `redisLibevTimeout(loop, timer, revents)`. -/
def redisLibevTimeout (cb : World → World × List Ev) (w : World) : World × List Ev :=
  if w.e.timer.data = false then (w, [])
  else if w.e.context = false then (w, [])
  else ((cb w).1, Ev.handleTimeout :: (cb w).2)

/-- Hook dispatch of `addRead`: hiredis calls `ac->ev.addRead(ac->ev.data)`,
so the `privdata` pointer is exactly the context's slot. -/
def hookAddRead (w : World) : World × List Ev := redisLibevAddRead w.ctxEvData w

/-- Hook dispatch of `delRead`. -/
def hookDelRead (w : World) : World × List Ev := redisLibevDelRead w.ctxEvData w

/-- Hook dispatch of `addWrite`. -/
def hookAddWrite (w : World) : World × List Ev := redisLibevAddWrite w.ctxEvData w

/-- Hook dispatch of `delWrite`. -/
def hookDelWrite (w : World) : World × List Ev := redisLibevDelWrite w.ctxEvData w

/-- Hook dispatch of `cleanup`. -/
def hookCleanup (w : World) : World × List Ev := redisLibevCleanup w.ctxEvData w

/-- Hook dispatch of `scheduleTimer`. -/
def hookSetTimeout (tv : Timeval) (w : World) : World × List Ev :=
  redisLibevSetTimeout w.ctxEvData tv w

/-- Hook dispatch of the never-installed `redisLibevStopTimer`. -/
def hookStopTimer (w : World) : World × List Ev := redisLibevStopTimer w.ctxEvData w

/-- Time passing in the external event loop between calls into the
adapter. -/
def advanceTime (d : Rat) (w : World) : World := { w with now := w.now + d }

/-- Dispatch through a hook-table slot value (the `tv` argument is only
consumed by `scheduleTimer`). -/
def runHookFn (f : HookFn) (tv : Timeval) (w : World) : World × List Ev :=
  match f with
  | HookFn.hAddRead => hookAddRead w
  | HookFn.hDelRead => hookDelRead w
  | HookFn.hAddWrite => hookAddWrite w
  | HookFn.hDelWrite => hookDelWrite w
  | HookFn.hStopTimer => hookStopTimer w
  | HookFn.hCleanup => hookCleanup w
  | HookFn.hSetTimeout => hookSetTimeout tv w

/-- `n` consecutive dispatches of the `cleanup` hook, with the
concatenated trace. -/
def cleanups : Nat → World → World × List Ev
  | 0, w => (w, [])
  | n + 1, w =>
    let r := hookCleanup w
    ((cleanups n r.1).1, r.2 ++ (cleanups n r.1).2)

/-- Run a sequence of read-side hook calls: `true` is `addRead`, `false`
is `delRead`. -/
def runRead : List Bool → World → World × List Ev
  | [], w => (w, [])
  | b :: rest, w =>
    let step := if b = true then hookAddRead w else hookDelRead w
    ((runRead rest step.1).1, step.2 ++ (runRead rest step.1).2)

/-- Run a sequence of write-side hook calls: `true` is `addWrite`,
`false` is `delWrite`. -/
def runWrite : List Bool → World → World × List Ev
  | [], w => (w, [])
  | b :: rest, w =>
    let step := if b = true then hookAddWrite w else hookDelWrite w
    ((runWrite rest step.1).1, step.2 ++ (runWrite rest step.1).2)

/-- `altEv start stop r t`: the trace `t` strictly alternates between
`start` and `stop` events, the next expected one being `stop` when
`r = true` (currently registered) and `start` when `r = false`. -/
def altEv (start stop : Ev) : Bool → List Ev → Bool
  | _, [] => true
  | false, x :: rest => x == start && altEv start stop true rest
  | true, x :: rest => x == stop && altEv start stop false rest

/-- No two adjacent occurrences of `x` in the list. -/
def noAdjacentPair (x : Ev) : List Ev → Bool
  | [] => true
  | [_] => true
  | a :: b :: rest => !(a == x && b == x) && noAdjacentPair x (b :: rest)

/-- Events that null a back-reference used to locate the adapter state
(the context's hook slot and the three watcher `data` fields). -/
def backrefNullEv : Ev → Bool
  | Ev.clearCtxEvData => true
  | Ev.nullWatcherData _ => true
  | _ => false

/-- Events that unregister a watcher from the loop. -/
def stopEv : Ev → Bool
  | Ev.ioStop _ => true
  | Ev.timerStop => true
  | _ => false

/-- Once an unregistration has happened, no further event of the trace
nulls a back-reference: every back-reference-nulling event precedes every
unregistration. -/
def noBackrefAfterStop : List Ev → Bool
  | [] => true
  | x :: rest =>
    (if stopEv x = true then rest.all (fun y => !backrefNullEv y) else true) &&
      noBackrefAfterStop rest

/-- The cleanup trace as the (amended) specification words it, as a
function of whether the context and loop references were non-null. -/
def specCleanupTrace (hasCtx hasLoop : Bool) : List Ev :=
  (if hasCtx = true then [Ev.clearCtxEvData] else []) ++
    [Ev.nullLoop, Ev.nullContext,
     Ev.nullWatcherData WK.rd, Ev.nullWatcherData WK.wr, Ev.nullWatcherData WK.tm] ++
    (if hasLoop = true then [Ev.ioStop WK.rd, Ev.ioStop WK.wr, Ev.timerStop] else []) ++
    [Ev.clearFlag WK.rd, Ev.clearFlag WK.wr, Ev.clearFlag WK.tm, Ev.free]

/-- States reachable through the adapter's operations, starting from a
successful `attach` and stepping by hook dispatches, `setPriority`,
`cleanup`, and time passing in the loop. -/
inductive Reach : World → Prop where
  | attached (w : World) (h : w.ctxEvData = false) :
      Reach (redisLibevAttach true w).1
  | addRead {w : World} : Reach w → Reach (hookAddRead w).1
  | delRead {w : World} : Reach w → Reach (hookDelRead w).1
  | addWrite {w : World} : Reach w → Reach (hookAddWrite w).1
  | delWrite {w : World} : Reach w → Reach (hookDelWrite w).1
  | schedTimer {w : World} (tv : Timeval) : Reach w → Reach (hookSetTimeout tv w).1
  | setPrio {w : World} (p : Int) : Reach w → Reach (redisLibevSetPriority p w).1
  | cleanup {w : World} : Reach w → Reach (hookCleanup w).1
  | tick {w : World} (d : Rat) : Reach w → Reach (advanceTime d w)

/-- The inductive state invariant: each flag mirrors "watcher registered
and loop non-null", and a live context slot implies a live, attached
state. -/
def Inv (w : World) : Prop :=
  w.e.reading = (w.e.rev.active && w.e.loop) ∧
  w.e.writing = (w.e.wev.active && w.e.loop) ∧
  w.e.timing = (w.e.timer.active && w.e.loop) ∧
  (w.ctxEvData = true → w.e.context = true ∧ w.alive = true ∧ w.e.loop = true)

/-- A blank pre-attach world: empty context slot, dead allocation, loop
time zero. -/
def W0 : World :=
  { e := { context := false, loop := false,
           reading := false, writing := false, timing := false,
           rev := { data := false, pri := 0, active := false },
           wev := { data := false, pri := 0, active := false },
           timer := { data := false, pri := 0, active := false, repeatV := 0, at_ := 0 },
           priority := 0 },
    alive := false, ctxEvData := false, hooks := none, now := 0 }

/-- The world right after a successful `attach` on the blank world. -/
def Wat : World := (redisLibevAttach true W0).1

/-- C1 (counterexample): on a freshly attached state, the cleanup trace
clears the client context's hook-table back-reference (`ctx->ev.data`)
at position 0, *before* nulling `state.context` (position 2) and
`state.loop` (position 1) — the claim's step (1) does not precede its
step (2) in the code. -/
theorem c1_cleanup_order_counterexample :
    Ev.clearCtxEvData ∈ (redisLibevCleanup true Wat).2 ∧
    Ev.nullContext ∈ (redisLibevCleanup true Wat).2 ∧
    (redisLibevCleanup true Wat).2.indexOf Ev.clearCtxEvData = 0 ∧
    (redisLibevCleanup true Wat).2.indexOf Ev.nullContext = 2 ∧
    ¬ ((redisLibevCleanup true Wat).2.indexOf Ev.nullContext <
        (redisLibevCleanup true Wat).2.indexOf Ev.clearCtxEvData) := by
  decide

/-- C1 (amended): given a non-null state, cleanup performs its teardown in
this order: (1) if the context reference is non-null, clear the client
context's hook-table back-reference; (2) null `state.loop`, then
`state.context`; (3) null the three watchers' back-references; (4) if the
captured loop is non-null, unregister the read, write and timer watchers;
(5) set `reading`, `writing`, `timing` to false; (6) release the state's
memory — and every back-reference is nulled before any watcher is
unregistered. -/
theorem c1_cleanup_order_amended (w : World) :
    (redisLibevCleanup true w).2 = specCleanupTrace w.e.context w.e.loop ∧
    noBackrefAfterStop (redisLibevCleanup true w).2 = true ∧
    (redisLibevCleanup true w).1.e.context = false ∧
    (redisLibevCleanup true w).1.e.loop = false ∧
    (redisLibevCleanup true w).1.e.reading = false ∧
    (redisLibevCleanup true w).1.e.writing = false ∧
    (redisLibevCleanup true w).1.e.timing = false ∧
    (redisLibevCleanup true w).1.e.rev.data = false ∧
    (redisLibevCleanup true w).1.e.wev.data = false ∧
    (redisLibevCleanup true w).1.e.timer.data = false ∧
    (redisLibevCleanup true w).1.ctxEvData =
      (if w.e.context = true then false else w.ctxEvData) ∧
    (redisLibevCleanup true w).1.alive = false := by
  cases hc : w.e.context <;> cases hl : w.e.loop <;>
    simp [redisLibevCleanup, specCleanupTrace, hc, hl] <;> decide

/-- C2: each fired-handler is a no-op when the watcher's back-reference or
the state's context reference is null; when both are non-null it hands
control to the client handler (`cb`) and performs no further access of
its own — its result is exactly the client handler's result.  A stale
firing dispatched on the state left by cleanup is a no-op. -/
theorem c2_fired_handlers_guarded (cb : World → World × List Ev) (w : World) :
    ((w.e.rev.data = false ∨ w.e.context = false) →
      redisLibevReadEvent cb w = (w, [])) ∧
    (w.e.rev.data = true → w.e.context = true →
      redisLibevReadEvent cb w = ((cb w).1, Ev.handleRead :: (cb w).2)) ∧
    (redisLibevReadEvent cb (redisLibevCleanup true w).1 =
      ((redisLibevCleanup true w).1, [])) ∧
    ((w.e.wev.data = false ∨ w.e.context = false) →
      redisLibevWriteEvent cb w = (w, [])) ∧
    (w.e.wev.data = true → w.e.context = true →
      redisLibevWriteEvent cb w = ((cb w).1, Ev.handleWrite :: (cb w).2)) ∧
    (redisLibevWriteEvent cb (redisLibevCleanup true w).1 =
      ((redisLibevCleanup true w).1, [])) ∧
    ((w.e.timer.data = false ∨ w.e.context = false) →
      redisLibevTimeout cb w = (w, [])) ∧
    (w.e.timer.data = true → w.e.context = true →
      redisLibevTimeout cb w = ((cb w).1, Ev.handleTimeout :: (cb w).2)) ∧
    (redisLibevTimeout cb (redisLibevCleanup true w).1 =
      ((redisLibevCleanup true w).1, [])) := by
  refine ⟨?_, ?_, ?_, ?_, ?_, ?_, ?_, ?_, ?_⟩
  · rintro (h | h) <;> simp [redisLibevReadEvent, h]
  · intro h1 h2; simp [redisLibevReadEvent, h1, h2]
  · simp [redisLibevReadEvent, redisLibevCleanup]
  · rintro (h | h) <;> simp [redisLibevWriteEvent, h]
  · intro h1 h2; simp [redisLibevWriteEvent, h1, h2]
  · simp [redisLibevWriteEvent, redisLibevCleanup]
  · rintro (h | h) <;> simp [redisLibevTimeout, h]
  · intro h1 h2; simp [redisLibevTimeout, h1, h2]
  · simp [redisLibevTimeout, redisLibevCleanup]

/-- C2 (witness): on the blank world the read fired-handler no-ops; on a
freshly attached world it invokes exactly the client read handler. -/
theorem c2_witness :
    redisLibevReadEvent (fun v => (v, [])) W0 = (W0, []) ∧
    redisLibevReadEvent (fun v => (v, [])) Wat = (Wat, [Ev.handleRead]) :=
  ⟨(c2_fired_handlers_guarded (fun v => (v, [])) W0).1 (Or.inl (by decide)),
   (c2_fired_handlers_guarded (fun v => (v, [])) Wat).2.1 (by decide) (by decide)⟩

/-- C5: attach fails with `AlreadyAttached` exactly when the context's
hook-table slot is non-null, fails with `AllocationFailure` exactly when
the slot is empty but allocation fails, leaves the world (the client
context and any existing adapter state) unmodified on either failure, and
on success fills the slot with a live state whose three flags are false
and whose hook table is installed. -/
theorem c5_attach_errors (allocOk : Bool) (w : World) :
    ((redisLibevAttach allocOk w).2 = AttachResult.errAlreadyAttached ↔
      w.ctxEvData = true) ∧
    ((redisLibevAttach allocOk w).2 = AttachResult.errAllocFailure ↔
      (w.ctxEvData = false ∧ allocOk = false)) ∧
    ((redisLibevAttach allocOk w).2 ≠ AttachResult.ok →
      (redisLibevAttach allocOk w).1 = w) ∧
    (w.ctxEvData = false → allocOk = true →
      ((redisLibevAttach allocOk w).2 = AttachResult.ok ∧
       (redisLibevAttach allocOk w).1.ctxEvData = true ∧
       (redisLibevAttach allocOk w).1.alive = true ∧
       (redisLibevAttach allocOk w).1.e.reading = false ∧
       (redisLibevAttach allocOk w).1.e.writing = false ∧
       (redisLibevAttach allocOk w).1.e.timing = false ∧
       (redisLibevAttach allocOk w).1.hooks = some attachHooks)) := by
  cases hc : w.ctxEvData <;> cases ha : allocOk <;>
    simp [redisLibevAttach, hc, ha]

/-- C5 (witness): attaching a second time to the already-attached world
returns `AlreadyAttached` and leaves it untouched; the first attach on
the blank world succeeds with all flags false. -/
theorem c5_witness :
    ((redisLibevAttach true Wat).2 = AttachResult.errAlreadyAttached ∧
     (redisLibevAttach true Wat).1 = Wat) ∧
    ((redisLibevAttach true W0).2 = AttachResult.ok ∧
     (redisLibevAttach true W0).1.e.reading = false) :=
  ⟨⟨(c5_attach_errors true Wat).1.mpr (by decide),
    (c5_attach_errors true Wat).2.2.1 (by decide)⟩,
   ⟨((c5_attach_errors true W0).2.2.2 (by decide) (by decide)).1,
    ((c5_attach_errors true W0).2.2.2 (by decide) (by decide)).2.2.2.1⟩⟩

/-- Dispatching cleanup through an empty hook slot passes a null
`privdata`, so it is a no-op, for any number of repetitions. -/
lemma cleanups_of_null (n : Nat) (v : World) (h : v.ctxEvData = false) :
    cleanups n v = (v, []) := by
  induction n with
  | zero => rfl
  | succ m ih => simp [cleanups, hookCleanup, redisLibevCleanup, h, ih]

/-- A dispatched cleanup on an attached state empties the context's hook
slot. -/
lemma hookCleanup_clears_slot (w : World) (h1 : w.ctxEvData = true)
    (h2 : w.e.context = true) : (hookCleanup w).1.ctxEvData = false := by
  simp [hookCleanup, redisLibevCleanup, h1, h2]

/-- C3: dispatching cleanup `n ≥ 1` times through the hook mechanism on an
attached state equals dispatching it once — the first call empties the
hook slot, so every later dispatch receives a null state and no-ops (the
last conjunct) — the state is released exactly once, and afterwards all
three flags are false and `context` and `loop` are null. -/
theorem c3_cleanup_idempotent (w : World) (n : Nat)
    (h1 : w.ctxEvData = true) (h2 : w.e.context = true) (hn : 1 ≤ n) :
    cleanups n w = cleanups 1 w ∧
    (cleanups n w).2.count Ev.free = 1 ∧
    (cleanups n w).1.e.reading = false ∧
    (cleanups n w).1.e.writing = false ∧
    (cleanups n w).1.e.timing = false ∧
    (cleanups n w).1.e.context = false ∧
    (cleanups n w).1.e.loop = false ∧
    (cleanups n w).1.ctxEvData = false ∧
    (cleanups n w).1.alive = false ∧
    (∀ v : World, v.ctxEvData = false → hookCleanup v = (v, [])) := by
  obtain ⟨m, rfl⟩ : ∃ m, n = m + 1 := ⟨n - 1, (Nat.succ_pred_eq_of_pos hn).symm⟩
  have hslot : (hookCleanup w).1.ctxEvData = false := hookCleanup_clears_slot w h1 h2
  have haux : cleanups (m + 1) w = ((hookCleanup w).1, (hookCleanup w).2) := by
    simp [cleanups, cleanups_of_null m _ hslot]
  have haux1 : cleanups 1 w = ((hookCleanup w).1, (hookCleanup w).2) := by
    simp [cleanups, cleanups_of_null 0 _ hslot]
  refine ⟨haux.trans haux1.symm, ?_, ?_, ?_, ?_, ?_, ?_, ?_, ?_, ?_⟩
  · rw [haux]
    cases hl : w.e.loop <;>
      simp [hookCleanup, redisLibevCleanup, h1, h2, hl]
  · rw [haux]; simp [hookCleanup, redisLibevCleanup, h1]
  · rw [haux]; simp [hookCleanup, redisLibevCleanup, h1]
  · rw [haux]; simp [hookCleanup, redisLibevCleanup, h1]
  · rw [haux]; simp [hookCleanup, redisLibevCleanup, h1]
  · rw [haux]; simp [hookCleanup, redisLibevCleanup, h1]
  · rw [haux]; simp [hookCleanup, redisLibevCleanup, h1, h2]
  · rw [haux]; simp [hookCleanup, redisLibevCleanup, h1]
  · intro v hv; simp [hookCleanup, redisLibevCleanup, hv]

/-- C3 (witness): dispatching cleanup twice on the freshly attached world
equals dispatching it once, and the state is freed exactly once. -/
theorem c3_witness :
    Wat.ctxEvData = true ∧ Wat.e.context = true ∧
    cleanups 2 Wat = cleanups 1 Wat ∧
    (cleanups 2 Wat).2.count Ev.free = 1 :=
  ⟨by decide, by decide,
   (c3_cleanup_idempotent Wat 2 (by decide) (by decide) (by decide)).1,
   (c3_cleanup_idempotent Wat 2 (by decide) (by decide) (by decide)).2.1⟩

/-- A dispatched `scheduleTimer` on an attached state with a live loop
marks the timer active, stores the converted duration as its repeat
interval, and re-arms it to fire that long after the current time,
touching neither the slot, the loop reference, the clock, nor the
context reference. -/
lemma hookSetTimeout_run (tv : Timeval) (w : World)
    (hc : w.ctxEvData = true) (hl : w.e.loop = true) :
    (hookSetTimeout tv w).1.e.timing = true ∧
    (hookSetTimeout tv w).1.e.timer.repeatV = tvToRat tv ∧
    (hookSetTimeout tv w).1.e.timer.at_ = w.now + tvToRat tv ∧
    (hookSetTimeout tv w).1.e.timer.active = true ∧
    (hookSetTimeout tv w).1.ctxEvData = true ∧
    (hookSetTimeout tv w).1.e.loop = true ∧
    (hookSetTimeout tv w).1.now = w.now ∧
    (hookSetTimeout tv w).1.e.context = w.e.context := by
  cases ht : w.e.timing <;>
    simp [hookSetTimeout, redisLibevSetTimeout, evTimerRearm, hc, hl, ht]

/-- C8: `scheduleTimer` no-ops when the state or loop reference is null;
otherwise it marks the timer active, converts the duration as
`tv_sec + tv_usec/1000000`, and re-arms the timer to the new duration
measured from the current time — a second call with `D2` before `D1`
elapses makes the timer due at `D2` from the second call's time,
replacing the remaining time; a zero or negative duration makes the
timer due no later than the current instant. -/
theorem c8_schedule_timer (w : World) (tv1 tv2 : Timeval) (dt : Rat)
    (hc : w.ctxEvData = true) (hl : w.e.loop = true)
    (_hdt0 : 0 ≤ dt) (_hdt1 : dt < tvToRat tv1) :
    ((hookSetTimeout tv1 w).1.e.timing = true) ∧
    ((hookSetTimeout tv1 w).1.e.timer.repeatV = tvToRat tv1) ∧
    ((hookSetTimeout tv1 w).1.e.timer.at_ = w.now + tvToRat tv1) ∧
    ((hookSetTimeout tv2 (advanceTime dt (hookSetTimeout tv1 w).1)).1.e.timer.at_ =
      (w.now + dt) + tvToRat tv2) ∧
    ((hookSetTimeout tv2 (advanceTime dt (hookSetTimeout tv1 w).1)).1.e.timer.repeatV =
      tvToRat tv2) ∧
    (tvToRat tv2 ≤ 0 → (hookSetTimeout tv2 w).1.e.timer.at_ ≤ w.now) ∧
    (∀ v : World, v.ctxEvData = false → hookSetTimeout tv1 v = (v, [])) ∧
    (∀ v : World, v.e.loop = false → redisLibevSetTimeout true tv1 v = (v, [])) := by
  obtain ⟨q1, q2, q3, q4, q5, q6, q7, q8⟩ := hookSetTimeout_run tv1 w hc hl
  have hc2 : (advanceTime dt (hookSetTimeout tv1 w).1).ctxEvData = true := q5
  have hl2 : (advanceTime dt (hookSetTimeout tv1 w).1).e.loop = true := q6
  obtain ⟨r1, r2, r3, r4, r5, r6, r7, r8⟩ := hookSetTimeout_run tv2 _ hc2 hl2
  have hnow2 : (advanceTime dt (hookSetTimeout tv1 w).1).now = w.now + dt := by
    simp [advanceTime, q7]
  refine ⟨q1, q2, q3, ?_, r2, ?_, ?_, ?_⟩
  · rw [r3, hnow2]
  · intro hneg
    obtain ⟨s1, s2, s3, s4, s5, s6, s7, s8⟩ := hookSetTimeout_run tv2 w hc hl
    rw [s3]
    linarith
  · intro v hv; simp [hookSetTimeout, redisLibevSetTimeout, hv]
  · intro v hv; simp [redisLibevSetTimeout, hv]

/-- C8 (witness): on the attached world, scheduling 5 s, letting 3 s pass,
then scheduling 1.5 s makes the timer due 1.5 s after the second call. -/
theorem c8_witness :
    Wat.ctxEvData = true ∧ (0 : Rat) ≤ 3 ∧ (3 : Rat) < tvToRat ⟨5, 0⟩ ∧
    (hookSetTimeout ⟨1, 500000⟩
        (advanceTime 3 (hookSetTimeout ⟨5, 0⟩ Wat).1)).1.e.timer.at_ =
      (Wat.now + 3) + tvToRat ⟨1, 500000⟩ :=
  ⟨by decide, by norm_num, by norm_num [tvToRat],
   (c8_schedule_timer Wat ⟨5, 0⟩ ⟨1, 500000⟩ 3 (by decide) (by decide)
      (by norm_num) (by norm_num [tvToRat])).2.2.2.1⟩

/-- C9: applying a priority while the timer is inactive stores it on the
timer watcher and in the state, but the first `scheduleTimer` afterwards
re-initializes the timer watcher (`ev_init`), resetting the watcher's
priority to the default `0` while the state's stored `priority` field
still holds the applied value. -/
theorem c9_priority_lost_on_timer_reinit (w : World) (p : Int) (tv : Timeval)
    (hc : w.ctxEvData = true) (hl : w.e.loop = true) (ht : w.e.timing = false) :
    ((redisLibevSetPriority p w).1.e.timer.pri = p) ∧
    ((redisLibevSetPriority p w).1.e.priority = p) ∧
    ((redisLibevSetPriority p w).1.e.timing = false) ∧
    ((hookSetTimeout tv (redisLibevSetPriority p w).1).1.e.timer.pri = 0) ∧
    ((hookSetTimeout tv (redisLibevSetPriority p w).1).1.e.priority = p) ∧
    ((hookSetTimeout tv (redisLibevSetPriority p w).1).1.e.timing = true) := by
  simp [redisLibevSetPriority, hookSetTimeout, redisLibevSetTimeout,
    evTimerRearm, hc, hl, ht]

/-- C9 (witness): on the attached world, priority 5 applied while the
timer is inactive is reset to 0 on the timer watcher by the first
`scheduleTimer`, while the stored priority stays 5. -/
theorem c9_witness :
    Wat.e.timing = false ∧
    (hookSetTimeout ⟨1, 0⟩ (redisLibevSetPriority 5 Wat).1).1.e.timer.pri = 0 ∧
    (hookSetTimeout ⟨1, 0⟩ (redisLibevSetPriority 5 Wat).1).1.e.priority = 5 :=
  ⟨by decide,
   (c9_priority_lost_on_timer_reinit Wat 5 ⟨1, 0⟩ (by decide) (by decide)
      (by decide)).2.2.2.1,
   (c9_priority_lost_on_timer_reinit Wat 5 ⟨1, 0⟩ (by decide) (by decide)
      (by decide)).2.2.2.2.1⟩

/-- Scenario world for the `setPriority` frame property: attach, schedule
a 5-second timer at time 0, then let 3 seconds pass (timer due at 5,
2 seconds remaining). -/
def W7 : World := advanceTime 3 (hookSetTimeout ⟨5, 0⟩ Wat).1

/-- C7 (counterexample): with the timer registered, due at 5 and 2 s
remaining at time 3, `setPriority 2` moves the timer's deadline from 5 to
8 — the timer is re-armed with its full repeat interval, not its
remaining duration, so something other than the stored priority and the
watchers' priorities changes. -/
theorem c7_counterexample :
    W7.e.timing = true ∧ W7.now = 3 ∧ W7.e.timer.at_ = 5 ∧
    (redisLibevSetPriority 2 W7).1.e.timer.at_ = 8 ∧
    ¬ ((redisLibevSetPriority 2 W7).1.e.timer.at_ = W7.e.timer.at_) := by
  refine ⟨?_, ?_, ?_, ?_, ?_⟩ <;>
    norm_num [W7, Wat, W0, redisLibevAttach, hookSetTimeout, redisLibevSetTimeout,
      evTimerRearm, advanceTime, redisLibevSetPriority, tvToRat]

/-- C7 (amended): `setPriority` is a no-op when the state slot or the
loop reference is null; otherwise it stores the priority, applies it to
all three watchers, and preserves each watcher's registered/unregistered
status and all flags — the only other change is that a registered timer
is re-armed with its configured repeat interval measured from the time of
the call (resetting, not preserving, its remaining duration). -/
theorem c7_set_priority_amended (p : Int) (w : World)
    (hc : w.ctxEvData = true) (hl : w.e.loop = true)
    (hr : w.e.rev.active = w.e.reading) (hw : w.e.wev.active = w.e.writing)
    (ht : w.e.timer.active = w.e.timing) :
    (redisLibevSetPriority p w).1 =
      { w with
          e := { w.e with
            priority := p,
            rev := { w.e.rev with pri := p },
            wev := { w.e.wev with pri := p },
            timer := { w.e.timer with
              pri := p,
              at_ := if w.e.timing = true then w.now + w.e.timer.repeatV
                     else w.e.timer.at_ } } } ∧
    (∀ v : World, v.ctxEvData = false → redisLibevSetPriority p v = (v, [])) ∧
    (∀ v : World, v.e.loop = false → redisLibevSetPriority p v = (v, [])) := by
  refine ⟨?_, ?_, ?_⟩
  · cases hrd : w.e.reading <;> cases hwr : w.e.writing <;> cases htm : w.e.timing <;>
      simp_all [redisLibevSetPriority, evTimerRearm, hc, hl]
  · intro v hv; simp [redisLibevSetPriority, hv]
  · intro v hv
    by_cases hcv : v.ctxEvData = true <;> simp [redisLibevSetPriority, hv, hcv]

/-- C7 (witness): on the freshly attached world (nothing registered),
`setPriority 2` leaves `reading` false and stores priority 2. -/
theorem c7_witness :
    Wat.ctxEvData = true ∧
    (redisLibevSetPriority 2 Wat).1.e.reading = Wat.e.reading ∧
    (redisLibevSetPriority 2 Wat).1.e.priority = 2 := by
  have h := (c7_set_priority_amended 2 Wat (by decide) (by decide) (by decide)
    (by decide) (by decide)).1
  exact ⟨by decide, by rw [h], by rw [h]⟩

/-- C10: the hook table installed by attach holds exactly the six adapter
functions and no timer-stop entry; every installed hook other than
cleanup leaves `timing = true` untouched, and the cleanup hook — the only
installed hook that clears `timing` — also releases the state. -/
theorem c10_no_stop_timer_hook :
    (HookFn.hStopTimer ∉ tableValues attachHooks) ∧
    (∀ f, f ∈ tableValues attachHooks → f ≠ HookFn.hCleanup →
      ∀ (tv : Timeval) (w : World), w.e.timing = true →
        (runHookFn f tv w).1.e.timing = true) ∧
    (∀ (tv : Timeval) (w : World), w.ctxEvData = true →
      ((runHookFn HookFn.hCleanup tv w).1.e.timing = false ∧
       (runHookFn HookFn.hCleanup tv w).1.alive = false)) := by
  refine ⟨by decide, ?_, ?_⟩
  · intro f hf hne tv w ht
    simp only [tableValues, attachHooks, List.mem_cons, List.not_mem_nil,
      or_false] at hf
    rcases hf with rfl | rfl | rfl | rfl | rfl | rfl
    · simp only [runHookFn, hookAddRead, redisLibevAddRead]
      split_ifs <;> simp_all
    · simp only [runHookFn, hookDelRead, redisLibevDelRead]
      split_ifs <;> simp_all
    · simp only [runHookFn, hookAddWrite, redisLibevAddWrite]
      split_ifs <;> simp_all
    · simp only [runHookFn, hookDelWrite, redisLibevDelWrite]
      split_ifs <;> simp_all
    · exact absurd rfl hne
    · simp only [runHookFn, hookSetTimeout, redisLibevSetTimeout]
      split_ifs <;> simp_all
  · intro tv w h
    constructor <;> simp [runHookFn, hookCleanup, redisLibevCleanup, h]

/-- C10 (witness): `scheduleTimer` is installed, and dispatching the
installed `addRead` on a world whose timer is running leaves `timing`
true. -/
theorem c10_witness :
    HookFn.hSetTimeout ∈ tableValues attachHooks ∧
    (runHookFn HookFn.hAddRead ⟨0, 0⟩
      (hookSetTimeout ⟨1, 0⟩ Wat).1).1.e.timing = true :=
  ⟨by decide,
   c10_no_stop_timer_hook.2.1 HookFn.hAddRead (by decide) (by decide) ⟨0, 0⟩ _
     (by decide)⟩

/-- A successful attach establishes the invariant. -/
lemma inv_attached (v : World) (hv : v.ctxEvData = false) :
    Inv (redisLibevAttach true v).1 := by
  unfold Inv redisLibevAttach
  simp [hv]

/-- `addRead` preserves the invariant. -/
lemma inv_hookAddRead {v : World} (ih : Inv v) : Inv (hookAddRead v).1 := by
  obtain ⟨i1, i2, i3, i4⟩ := ih
  unfold Inv hookAddRead redisLibevAddRead
  split_ifs with h1 h2 h3
  · exact ⟨i1, i2, i3, i4⟩
  · exact ⟨i1, i2, i3, i4⟩
  · have hl : v.e.loop = true := by simp_all
    exact ⟨by simp [hl], i2, i3, i4⟩
  · exact ⟨i1, i2, i3, i4⟩

/-- `delRead` preserves the invariant. -/
lemma inv_hookDelRead {v : World} (ih : Inv v) : Inv (hookDelRead v).1 := by
  obtain ⟨i1, i2, i3, i4⟩ := ih
  unfold Inv hookDelRead redisLibevDelRead
  cases hc : v.ctxEvData <;> cases hr : v.e.reading <;> cases hl : v.e.loop <;>
    simp_all

/-- `addWrite` preserves the invariant. -/
lemma inv_hookAddWrite {v : World} (ih : Inv v) : Inv (hookAddWrite v).1 := by
  obtain ⟨i1, i2, i3, i4⟩ := ih
  unfold Inv hookAddWrite redisLibevAddWrite
  split_ifs with h1 h2 h3
  · exact ⟨i1, i2, i3, i4⟩
  · exact ⟨i1, i2, i3, i4⟩
  · have hl : v.e.loop = true := by simp_all
    exact ⟨i1, by simp [hl], i3, i4⟩
  · exact ⟨i1, i2, i3, i4⟩

/-- `delWrite` preserves the invariant. -/
lemma inv_hookDelWrite {v : World} (ih : Inv v) : Inv (hookDelWrite v).1 := by
  obtain ⟨i1, i2, i3, i4⟩ := ih
  unfold Inv hookDelWrite redisLibevDelWrite
  cases hc : v.ctxEvData <;> cases hw : v.e.writing <;> cases hl : v.e.loop <;>
    simp_all

/-- `scheduleTimer` preserves the invariant. -/
lemma inv_hookSetTimeout {v : World} (tv : Timeval) (ih : Inv v) :
    Inv (hookSetTimeout tv v).1 := by
  obtain ⟨i1, i2, i3, i4⟩ := ih
  unfold Inv hookSetTimeout redisLibevSetTimeout evTimerRearm
  split_ifs with h1 h2 h3
  · exact ⟨i1, i2, i3, i4⟩
  · exact ⟨i1, i2, i3, i4⟩
  · have hl : v.e.loop = true := by simp_all
    exact ⟨i1, i2, by simp [hl], i4⟩
  · have hl : v.e.loop = true := by simp_all
    have htm : v.e.timing = true := by simp_all
    exact ⟨i1, i2, by simp [hl, htm], i4⟩

/-- `setPriority` preserves the invariant. -/
lemma inv_setPriority {v : World} (p : Int) (ih : Inv v) :
    Inv (redisLibevSetPriority p v).1 := by
  obtain ⟨i1, i2, i3, i4⟩ := ih
  unfold Inv redisLibevSetPriority evTimerRearm
  cases hc : v.ctxEvData <;> cases hl : v.e.loop <;>
    cases hr : v.e.reading <;> cases hw : v.e.writing <;> cases ht : v.e.timing <;>
      simp_all

/-- `cleanup` preserves the invariant. -/
lemma inv_hookCleanup {v : World} (ih : Inv v) : Inv (hookCleanup v).1 := by
  obtain ⟨i1, i2, i3, i4⟩ := ih
  unfold Inv hookCleanup redisLibevCleanup
  cases hc : v.ctxEvData <;> cases hctx : v.e.context <;> cases hl : v.e.loop <;>
    simp_all

/-- Time passing preserves the invariant. -/
lemma inv_advanceTime {v : World} (d : Rat) (ih : Inv v) :
    Inv (advanceTime d v) := by
  obtain ⟨i1, i2, i3, i4⟩ := ih
  unfold Inv advanceTime
  exact ⟨i1, i2, i3, i4⟩

/-- Every reachable state satisfies the invariant. -/
lemma reach_inv (w : World) (h : Reach w) : Inv w := by
  induction h with
  | attached v hv => exact inv_attached v hv
  | addRead _ ih => exact inv_hookAddRead ih
  | delRead _ ih => exact inv_hookDelRead ih
  | addWrite _ ih => exact inv_hookAddWrite ih
  | delWrite _ ih => exact inv_hookDelWrite ih
  | schedTimer tv _ ih => exact inv_hookSetTimeout tv ih
  | setPrio p _ ih => exact inv_setPriority p ih
  | cleanup _ ih => exact inv_hookCleanup ih
  | tick d _ ih => exact inv_advanceTime d ih

/-- C4: in every state reachable through the adapter's operations, each of
the three flags is true exactly when the corresponding watcher is
registered and the loop reference is non-null; moreover, on a null loop,
`delRead`/`delWrite` still leave the flag false while
`addRead`/`addWrite` do nothing at all. -/
theorem c4_flags_iff_registered :
    (∀ w : World, Reach w →
      (w.e.reading = (w.e.rev.active && w.e.loop) ∧
       w.e.writing = (w.e.wev.active && w.e.loop) ∧
       w.e.timing = (w.e.timer.active && w.e.loop))) ∧
    (∀ w : World, w.e.loop = false →
      ((redisLibevDelRead true w).1.e.reading = false ∧
       (redisLibevDelWrite true w).1.e.writing = false ∧
       redisLibevAddRead true w = (w, []) ∧
       redisLibevAddWrite true w = (w, []))) := by
  constructor
  · intro w hw
    obtain ⟨i1, i2, i3, _⟩ := reach_inv w hw
    exact ⟨i1, i2, i3⟩
  · intro w hl
    refine ⟨?_, ?_, ?_, ?_⟩
    · cases hr : w.e.reading <;> simp [redisLibevDelRead, hr, hl]
    · cases hw : w.e.writing <;> simp [redisLibevDelWrite, hw, hl]
    · simp [redisLibevAddRead, hl]
    · simp [redisLibevAddWrite, hl]

/-- C4 (witness): the freshly attached world is reachable and its
`reading` flag mirrors the read watcher's registration. -/
theorem c4_witness :
    Reach Wat ∧ Wat.e.reading = (Wat.e.rev.active && Wat.e.loop) :=
  ⟨Reach.attached W0 (by decide),
   (c4_flags_iff_registered.1 Wat (Reach.attached W0 (by decide))).1⟩

/-- Events concerning the read watcher's registration. -/
def rdEvB (x : Ev) : Bool := x == Ev.ioStart WK.rd || x == Ev.ioStop WK.rd

/-- Events concerning the write watcher's registration. -/
def wrEvB (x : Ev) : Bool := x == Ev.ioStart WK.wr || x == Ev.ioStop WK.wr

/-- A dispatched `addRead` on an attached state with a live loop leaves
the slot and loop untouched, ends with `reading` true, and calls
`ev_io_start` exactly when the flag was not already set. -/
lemma hookAddRead_fields {v : World} (hc : v.ctxEvData = true) (hl : v.e.loop = true) :
    (hookAddRead v).1.ctxEvData = true ∧ (hookAddRead v).1.e.loop = true ∧
    (hookAddRead v).1.e.reading = true ∧
    (hookAddRead v).2 = (if v.e.reading = true then [] else [Ev.ioStart WK.rd]) := by
  cases hr : v.e.reading <;> simp [hookAddRead, redisLibevAddRead, hc, hl, hr]

/-- A dispatched `delRead` on an attached state with a live loop leaves
the slot and loop untouched, ends with `reading` false, and calls
`ev_io_stop` exactly when the flag was set. -/
lemma hookDelRead_fields {v : World} (hc : v.ctxEvData = true) (hl : v.e.loop = true) :
    (hookDelRead v).1.ctxEvData = true ∧ (hookDelRead v).1.e.loop = true ∧
    (hookDelRead v).1.e.reading = false ∧
    (hookDelRead v).2 = (if v.e.reading = true then [Ev.ioStop WK.rd] else []) := by
  cases hr : v.e.reading <;> simp [hookDelRead, redisLibevDelRead, hc, hl, hr]

/-- Write-side version of `hookAddRead_fields`. -/
lemma hookAddWrite_fields {v : World} (hc : v.ctxEvData = true) (hl : v.e.loop = true) :
    (hookAddWrite v).1.ctxEvData = true ∧ (hookAddWrite v).1.e.loop = true ∧
    (hookAddWrite v).1.e.writing = true ∧
    (hookAddWrite v).2 = (if v.e.writing = true then [] else [Ev.ioStart WK.wr]) := by
  cases hw : v.e.writing <;> simp [hookAddWrite, redisLibevAddWrite, hc, hl, hw]

/-- Write-side version of `hookDelRead_fields`. -/
lemma hookDelWrite_fields {v : World} (hc : v.ctxEvData = true) (hl : v.e.loop = true) :
    (hookDelWrite v).1.ctxEvData = true ∧ (hookDelWrite v).1.e.loop = true ∧
    (hookDelWrite v).1.e.writing = false ∧
    (hookDelWrite v).2 = (if v.e.writing = true then [Ev.ioStop WK.wr] else []) := by
  cases hw : v.e.writing <;> simp [hookDelWrite, redisLibevDelWrite, hc, hl, hw]

/-- Main induction for read-side sequences: the slot and loop are
preserved, the final flag is the last call's intent (folding the
sequence over the initial flag), and the read-watcher events of the
trace strictly alternate between start and stop, starting from the
initial registration state. -/
lemma runRead_spec (ops : List Bool) : ∀ (v : World),
    v.ctxEvData = true → v.e.loop = true →
    (runRead ops v).1.ctxEvData = true ∧
    (runRead ops v).1.e.loop = true ∧
    (runRead ops v).1.e.reading = ops.foldl (fun _ b => b) v.e.reading ∧
    altEv (Ev.ioStart WK.rd) (Ev.ioStop WK.rd) v.e.reading
      ((runRead ops v).2.filter rdEvB) = true := by
  induction ops with
  | nil =>
    intro v hc hl
    refine ⟨hc, hl, rfl, ?_⟩
    cases v.e.reading <;> rfl
  | cons b rest ih =>
    intro v hc hl
    cases b
    · obtain ⟨s1, s2, s3, s4⟩ := hookDelRead_fields hc hl
      obtain ⟨j1, j2, j3, j4⟩ := ih (hookDelRead v).1 s1 s2
      rw [s3] at j3 j4
      refine ⟨?_, ?_, ?_, ?_⟩
      · simpa [runRead] using j1
      · simpa [runRead] using j2
      · simpa [runRead, List.foldl_cons] using j3
      · cases hr : v.e.reading <;>
          simp_all [runRead, s4, altEv, rdEvB, List.filter_append]
    · obtain ⟨s1, s2, s3, s4⟩ := hookAddRead_fields hc hl
      obtain ⟨j1, j2, j3, j4⟩ := ih (hookAddRead v).1 s1 s2
      rw [s3] at j3 j4
      refine ⟨?_, ?_, ?_, ?_⟩
      · simpa [runRead] using j1
      · simpa [runRead] using j2
      · simpa [runRead, List.foldl_cons] using j3
      · cases hr : v.e.reading <;>
          simp_all [runRead, s4, altEv, rdEvB, List.filter_append]

/-- Main induction for write-side sequences. -/
lemma runWrite_spec (ops : List Bool) : ∀ (v : World),
    v.ctxEvData = true → v.e.loop = true →
    (runWrite ops v).1.ctxEvData = true ∧
    (runWrite ops v).1.e.loop = true ∧
    (runWrite ops v).1.e.writing = ops.foldl (fun _ b => b) v.e.writing ∧
    altEv (Ev.ioStart WK.wr) (Ev.ioStop WK.wr) v.e.writing
      ((runWrite ops v).2.filter wrEvB) = true := by
  induction ops with
  | nil =>
    intro v hc hl
    refine ⟨hc, hl, rfl, ?_⟩
    cases v.e.writing <;> rfl
  | cons b rest ih =>
    intro v hc hl
    cases b
    · obtain ⟨s1, s2, s3, s4⟩ := hookDelWrite_fields hc hl
      obtain ⟨j1, j2, j3, j4⟩ := ih (hookDelWrite v).1 s1 s2
      rw [s3] at j3 j4
      refine ⟨?_, ?_, ?_, ?_⟩
      · simpa [runWrite] using j1
      · simpa [runWrite] using j2
      · simpa [runWrite, List.foldl_cons] using j3
      · cases hw : v.e.writing <;>
          simp_all [runWrite, s4, altEv, wrEvB, List.filter_append]
    · obtain ⟨s1, s2, s3, s4⟩ := hookAddWrite_fields hc hl
      obtain ⟨j1, j2, j3, j4⟩ := ih (hookAddWrite v).1 s1 s2
      rw [s3] at j3 j4
      refine ⟨?_, ?_, ?_, ?_⟩
      · simpa [runWrite] using j1
      · simpa [runWrite] using j2
      · simpa [runWrite, List.foldl_cons] using j3
      · cases hw : v.e.writing <;>
          simp_all [runWrite, s4, altEv, wrEvB, List.filter_append]

/-- Folding "keep the last element" over a non-empty list yields its last
element. -/
lemma foldl_last (ops : List Bool) (r : Bool) (h : ops ≠ []) :
    ops.foldl (fun _ b => b) r = ops.getLast h := by
  induction ops generalizing r with
  | nil => exact absurd rfl h
  | cons b rest ih =>
    cases rest with
    | nil => simp
    | cons c rest2 =>
      rw [List.foldl_cons, List.getLast_cons (by simp)]
      exact ih b (by simp)

/-- A strictly alternating start/stop trace never holds two adjacent
start events. -/
lemma altEv_noAdjacent (s t : Ev) (hst : (s == t) = false) :
    ∀ (l : List Ev) (r : Bool), altEv s t r l = true → noAdjacentPair s l = true
  | [], _, _ => rfl
  | [_], _, _ => rfl
  | a :: b :: rest, r, h => by
    cases r with
    | false =>
      have h1 : (a == s) = true ∧ altEv s t true (b :: rest) = true := by
        simpa [altEv, Bool.and_eq_true] using h
      have h2 : (b == t) = true ∧ altEv s t false rest = true := by
        simpa [altEv, Bool.and_eq_true] using h1.2
      have hbs : (b == s) = false := by
        have : b = t := by simpa [beq_iff_eq] using h2.1
        subst this
        simpa [BEq.comm] using hst
      have hrec : noAdjacentPair s (b :: rest) = true :=
        altEv_noAdjacent s t hst (b :: rest) true h1.2
      simp [noAdjacentPair, hbs, hrec]
    | true =>
      have h1 : (a == t) = true ∧ altEv s t false (b :: rest) = true := by
        simpa [altEv, Bool.and_eq_true] using h
      have has : (a == s) = false := by
        have : a = t := by simpa [beq_iff_eq] using h1.1
        subst this
        simpa [BEq.comm] using hst
      have hrec : noAdjacentPair s (b :: rest) = true :=
        altEv_noAdjacent s t hst (b :: rest) false h1.2
      simp [noAdjacentPair, has, hrec]

/-- C6: for every non-empty sequence of dispatched `addRead`/`delRead`
calls on an attached state with a live loop, the final `reading` flag is
true exactly when the last call was `addRead`; the read watcher is never
started twice without an intervening stop (two `addRead`s in a row start
it exactly once); and `delRead` on a non-reading state performs no loop
call at all — and likewise on the write side. -/
theorem c6_add_del_sequences :
    (∀ (ops : List Bool) (w : World) (hne : ops ≠ []),
      w.ctxEvData = true → w.e.loop = true →
      ((runRead ops w).1.e.reading = ops.getLast hne ∧
       noAdjacentPair (Ev.ioStart WK.rd) ((runRead ops w).2.filter rdEvB) = true)) ∧
    (∀ w : World, w.ctxEvData = true → w.e.loop = true → w.e.reading = false →
      (runRead [true, true] w).2 = [Ev.ioStart WK.rd]) ∧
    (∀ w : World, w.e.reading = false → hookDelRead w = (w, [])) ∧
    (∀ (ops : List Bool) (w : World) (hne : ops ≠ []),
      w.ctxEvData = true → w.e.loop = true →
      ((runWrite ops w).1.e.writing = ops.getLast hne ∧
       noAdjacentPair (Ev.ioStart WK.wr) ((runWrite ops w).2.filter wrEvB) = true)) ∧
    (∀ w : World, w.ctxEvData = true → w.e.loop = true → w.e.writing = false →
      (runWrite [true, true] w).2 = [Ev.ioStart WK.wr]) ∧
    (∀ w : World, w.e.writing = false → hookDelWrite w = (w, [])) := by
  refine ⟨?_, ?_, ?_, ?_, ?_, ?_⟩
  · intro ops w hne hc hl
    obtain ⟨_, _, j3, j4⟩ := runRead_spec ops w hc hl
    refine ⟨by rw [j3, foldl_last ops _ hne], ?_⟩
    exact altEv_noAdjacent _ _ (by decide) _ _ j4
  · intro w hc hl hr
    simp [runRead, hookAddRead, redisLibevAddRead, hc, hl, hr]
  · intro w hr
    by_cases hc : w.ctxEvData = true <;> simp [hookDelRead, redisLibevDelRead, hc, hr]
  · intro ops w hne hc hl
    obtain ⟨_, _, j3, j4⟩ := runWrite_spec ops w hc hl
    refine ⟨by rw [j3, foldl_last ops _ hne], ?_⟩
    exact altEv_noAdjacent _ _ (by decide) _ _ j4
  · intro w hc hl hw
    simp [runWrite, hookAddWrite, redisLibevAddWrite, hc, hl, hw]
  · intro w hw
    by_cases hc : w.ctxEvData = true <;> simp [hookDelWrite, redisLibevDelWrite, hc, hw]

/-- C6 (witness): on the attached world, after `addRead` then `delRead`
the flag is false (the last call's intent), and two `addRead`s in a row
emit a single `ev_io_start`. -/
theorem c6_witness :
    Wat.ctxEvData = true ∧
    (runRead [true, false] Wat).1.e.reading = false ∧
    (runRead [true, true] Wat).2 = [Ev.ioStart WK.rd] := by
  refine ⟨by decide, ?_, ?_⟩
  · have h := (c6_add_del_sequences.1 [true, false] Wat (by decide) (by decide)
      (by decide)).1
    simpa using h
  · exact c6_add_del_sequences.2.1 Wat (by decide) (by decide) (by decide)

end Libev
